import Mathlib

/-!
Verification development for the liquidcn repository.

This file gives a shallow embedding, in Lean 4, of the parts of the
liquidcn source that the claims of the specification are about:

* `src/speech-to-text/server.ts` — `transcribeStreaming`, `transcribeAudio`
  and `createSpeechToTextHandler`;
* `src/client/hooks/use-speech-to-text.ts` — the `transcribe` function of
  `useSpeechToText`;
* `src/client/utils/audio-utils.ts` — `audioBufferToWav`;
* the FormBuilder / FormSection / DiscriminatedUnionSection renderer
  (conditional rendering, field sorting, discriminated-union updates,
  wizard step navigation);
* the ChatView voice-recording toggle.

External effects (fetch, the `ai` SDK call, `JSON.parse`, MediaRecorder,
getUserMedia) are modelled as explicit oracle inputs; asynchronous
JavaScript code that may throw is modelled with `Except String`.  JS
numbers that hold integers are modelled as `Int`/`Nat`, audio samples as
`Rat`, and byte stores as functions `Nat → Nat` updated pointwise.
-/

namespace Liquidcn

/-- JavaScript values as they appear in form data, JSON bodies and
conditions.  Numbers carried by conditions and form fields in this code
base are integers or strings, so `Int` suffices for `num`. -/
inductive JSValue : Type where
  | undefined : JSValue
  | null : JSValue
  | str : String → JSValue
  | num : Int → JSValue
  | bool : Bool → JSValue
  | obj : List (String × JSValue) → JSValue
  deriving Repr

mutual
/-- Structural decidable equality for `JSValue` (models JS `===` on the
primitive values that conditions and JSON bodies use). -/
def JSValue.beq : JSValue → JSValue → Bool
  | .undefined, .undefined => true
  | .null, .null => true
  | .str a, .str b => a == b
  | .num a, .num b => a == b
  | .bool a, .bool b => a == b
  | .obj a, .obj b => JSValue.beqFields a b
  | _, _ => false

/-- Field-list equality used by `JSValue.beq`. -/
def JSValue.beqFields : List (String × JSValue) → List (String × JSValue) → Bool
  | [], [] => true
  | (k₁, v₁) :: r₁, (k₂, v₂) :: r₂ => k₁ == k₂ && JSValue.beq v₁ v₂ && JSValue.beqFields r₁ r₂
  | _, _ => false
end

mutual
/-- `JSValue.beq` is reflexive. -/
def JSValue.beq_refl : (a : JSValue) → JSValue.beq a a = true
  | .undefined => rfl
  | .null => rfl
  | .str _ => by simp [JSValue.beq]
  | .num _ => by simp [JSValue.beq]
  | .bool _ => by simp [JSValue.beq]
  | .obj fs => by simp [JSValue.beq, JSValue.beqFields_refl fs]

/-- `JSValue.beqFields` is reflexive. -/
def JSValue.beqFields_refl : (l : List (String × JSValue)) → JSValue.beqFields l l = true
  | [] => rfl
  | (k, v) :: r => by
      simp [JSValue.beqFields, JSValue.beq_refl v, JSValue.beqFields_refl r]
end

mutual
/-- `JSValue.beq` is sound for equality. -/
def JSValue.eq_of_beq : {a b : JSValue} → JSValue.beq a b = true → a = b
  | .undefined, .undefined, _ => rfl
  | .null, .null, _ => rfl
  | .str _, .str _, h => by simp [JSValue.beq] at h; simp [h]
  | .num _, .num _, h => by simp [JSValue.beq] at h; simp [h]
  | .bool _, .bool _, h => by simp [JSValue.beq] at h; simp [h]
  | .obj a, .obj b, h => by
      simp only [JSValue.beq] at h
      exact congrArg JSValue.obj (JSValue.eqFields_of_beqFields h)

/-- `JSValue.beqFields` is sound for equality. -/
def JSValue.eqFields_of_beqFields :
    {a b : List (String × JSValue)} → JSValue.beqFields a b = true → a = b
  | [], [], _ => rfl
  | (k₁, v₁) :: r₁, (k₂, v₂) :: r₂, h => by
      simp only [JSValue.beqFields, Bool.and_eq_true, beq_iff_eq] at h
      obtain ⟨⟨hk, hv⟩, hr⟩ := h
      rw [hk, JSValue.eq_of_beq hv, JSValue.eqFields_of_beqFields hr]
end

instance : DecidableEq JSValue := fun a b =>
  if h : JSValue.beq a b = true then
    .isTrue (JSValue.eq_of_beq h)
  else
    .isFalse (fun he => h (he ▸ JSValue.beq_refl a))

/-! ## src/speech-to-text/server.ts -/

/-- `SpeechToTextResponse` from `src/speech-to-text/types`: the reshaped
transcription result `{ text, language? }`. -/
structure SpeechToTextResponse where
  text : String
  language : Option String
  deriving DecidableEq, Repr

/-- Result object of the `ai` SDK call `experimental_transcribe` (the
fields the code reads: `result.text` and `result.language`). -/
structure AITranscribeResult where
  text : String
  language : Option String
  deriving DecidableEq, Repr

/-- Model of a `fetch` response for the direct streaming call: the `ok`
flag, the HTTP `status`, and the body as a list of decoded text chunks
(`none` models a missing `response.body`). -/
structure StreamingFetchResponse where
  ok : Bool
  status : Nat
  body : Option (List String)
  deriving Repr

/-- JS truthiness of a `JSValue` (used for `if (parsed.text)`). -/
def jsTruthy : JSValue → Bool
  | .undefined => false
  | .null => false
  | .str s => s ≠ ""
  | .num n => n ≠ 0
  | .bool b => b
  | .obj _ => true

/-- JS member access `v.text`: `undefined` on non-objects and missing
keys, the stored value otherwise (first binding wins, as in a JS
object literal). -/
def jsGetProp (v : JSValue) (key : String) : JSValue :=
  match v with
  | .obj fields =>
      match fields.find? (fun kv => kv.1 = key) with
      | some kv => kv.2
      | none => .undefined
  | _ => .undefined

/-- JS `ToString` on the values our model can produce (only reached for
truthy `parsed.text` values in the SSE loop). -/
def jsToString : JSValue → String
  | .undefined => "undefined"
  | .null => "null"
  | .str s => s
  | .num n => toString n
  | .bool b => if b then "true" else "false"
  | .obj _ => "[object Object]"

/-- One SSE line of the streaming loop body: lines starting `"data: "`
and not containing `"[DONE]"` contribute text — the `text` field of the parsed JSON when `JSON.parse` succeeds and the field is truthy,
the raw remainder of the line when parsing fails.
`jsonParse` is the oracle for `JSON.parse` (`none` = throws). -/
def sseLineText (jsonParse : String → Option JSValue) (line : String) : String :=
  if line.startsWith "data: " ∧ ¬ (line.containsSubstr "[DONE]") then
    let payload := line.drop 6
    match jsonParse payload with
    | some parsed =>
        if jsTruthy (jsGetProp parsed "text") then jsToString (jsGetProp parsed "text") else ""
    | none => payload
  else ""

/-- Text collected from all chunks by the streaming read loop of
`transcribeStreaming`: each chunk is split on newlines and every
`"data: "` line contributes via `sseLineText`. -/
def collectStreamText (jsonParse : String → Option JSValue) (chunks : List String) : String :=
  chunks.foldl
    (fun text chunk =>
      ((chunk.splitOn "\n").foldl (fun t line => t ++ sseLineText jsonParse line) text))
    ""

/-- `transcribeStreaming` (server.ts lines 25–74): the direct OpenAI API
call.  Throws (`Except.error`) when the response is not ok — with the
upstream status in the message — or when it has no body; otherwise
returns the trimmed collected text. -/
def transcribeStreaming (jsonParse : String → Option JSValue)
    (response : StreamingFetchResponse) : Except String SpeechToTextResponse :=
  if ¬ response.ok then
    .error ("OpenAI streaming transcription failed: " ++ toString response.status)
  else
    match response.body with
    | none => .error "No response body for streaming transcription"
    | some chunks =>
        .ok { text := (collectStreamText jsonParse chunks).trim, language := none }

/-- The external calls `transcribeAudio` can make. -/
inductive UpstreamCall : Type where
  | standard : UpstreamCall
  | streaming : UpstreamCall
  deriving DecidableEq, Repr

/-- Oracle for the upstream world seen by `transcribeAudio`: the outcome
of the `ai` SDK `transcribe` call, and the fetch response plus
`JSON.parse` behaviour seen by the fallback streaming call. -/
structure UpstreamEnv where
  standardResult : Except String AITranscribeResult
  streamingResponse : StreamingFetchResponse
  jsonParse : String → Option JSValue

/-- `transcribeAudio` (server.ts lines 85–114), instrumented with the
list of upstream calls it performs, in order: one standard call, then —
only when the standard call throws — one fallback streaming call whose
outcome (success or error) is returned as-is. -/
def transcribeAudio (env : UpstreamEnv) :
    Except String SpeechToTextResponse × List UpstreamCall :=
  match env.standardResult with
  | .ok result =>
      (.ok { text := result.text, language := result.language }, [.standard])
  | .error _ =>
      (transcribeStreaming env.jsonParse env.streamingResponse, [.standard, .streaming])

/-- Model of an HTTP response produced by the handler: status code and
JSON body. -/
structure HttpResponse where
  status : Nat
  body : JSValue
  deriving DecidableEq, Repr

/-- Model of the multipart form data of a request: the bytes of the `audio` file when present, and the optional `language` and `model` fields. -/
structure FormDataModel where
  audio : Option (List Nat)
  language : Option String
  model : Option String

/-- Everything the handler observes about one request and its
environment: whether `OPENAI_API_KEY` is set, the result of the optional
`authenticate` callback (`none` = no callback configured), the outcome
of `req.formData()` (which may throw), and the upstream oracle. -/
structure HandlerEnv where
  apiKeyPresent : Bool
  authenticate : Option Bool
  formData : Except String FormDataModel
  upstream : UpstreamEnv

/-- JSON body `{ text, language? }` of a 200 response
(`JSON.stringify` omits an absent `language`). -/
def successBody (r : SpeechToTextResponse) : JSValue :=
  .obj (("text", .str r.text) ::
    (match r.language with
     | some l => [("language", .str l)]
     | none => []))

/-- JSON body of the catch-all 500 response
`\x7b error: "Failed to transcribe audio", details \x7d`. -/
def transcribeFailedBody (details : String) : JSValue :=
  .obj [("error", .str "Failed to transcribe audio"), ("details", .str details)]

/-- The request handler returned by `createSpeechToTextHandler`
(server.ts lines 134–196): API-key check, optional authentication,
form-data parsing, audio presence check, transcription, and the
catch-all that turns any thrown error into a 500 response. -/
def createSpeechToTextHandler (env : HandlerEnv) : HttpResponse :=
  if ¬ env.apiKeyPresent then
    { status := 500
      body := .obj [("error", .str "Missing OPENAI_API_KEY environment variable")] }
  else if env.authenticate = some false then
    { status := 401, body := .obj [("error", .str "Unauthorized")] }
  else
    match env.formData with
    | .error e => { status := 500, body := transcribeFailedBody e }
    | .ok fd =>
        match fd.audio with
        | none => { status := 400, body := .obj [("error", .str "Audio file is required")] }
        | some _audioData =>
            match (transcribeAudio env.upstream).1 with
            | .ok result => { status := 200, body := successBody result }
            | .error e => { status := 500, body := transcribeFailedBody e }

/-! ## src/client/hooks/use-speech-to-text.ts -/

/-- Model of a `fetch` response seen by the hook: the `ok` flag and the
outcome of `response.json()` (which may throw on a non-JSON body). -/
structure HookFetchResponse where
  ok : Bool
  json : Except String JSValue

/-- Internal hook state `\x7b data, error, isLoading \x7d`.  The `data`
and `error` slots hold JS values; JS `null` is `JSValue.null`. -/
structure UseSpeechToTextState where
  data : JSValue
  error : JSValue
  isLoading : Bool
  deriving DecidableEq, Repr

/-- The pair returned by `transcribe`: `\x7b data, error \x7d`, each
slot a JS value, with JS `null` represented as `JSValue.null`.  Note
`data` on the ok path is the parsed JSON body unchanged, so it is
itself `null` when the body is the JSON literal `null`. -/
structure TranscribePair where
  data : JSValue
  error : JSValue
  deriving DecidableEq, Repr

/-- JSON body with error "Network error" and details, built in the catch
branch of `transcribe`. -/
def networkErrorBody (details : String) : JSValue :=
  .obj [("error", .str "Network error"), ("details", .str details)]

/-- The `transcribe` function of `useSpeechToText`
(use-speech-to-text.ts lines 68–107), as a function of the fetch
outcome (`Except.error` = fetch or `json()` threw).  Returns the pair
the promise resolves to together with the hook state set on that path;
callbacks `onSuccess`/`onError` are observation-only and modelled away. -/
def useSpeechToTextTranscribe (fetchResult : Except String HookFetchResponse) :
    TranscribePair × UseSpeechToTextState :=
  match fetchResult with
  | .error err =>
      let e := networkErrorBody err
      (⟨.null, e⟩, ⟨.null, e, false⟩)
  | .ok response =>
      match response.json with
      | .error err =>
          let e := networkErrorBody err
          (⟨.null, e⟩, ⟨.null, e, false⟩)
      | .ok json =>
          if ¬ response.ok then
            (⟨.null, json⟩, ⟨.null, json, false⟩)
          else
            (⟨json, .null⟩, ⟨json, .null, false⟩)

/-! ## src/client/utils/audio-utils.ts -/

/-- A zero-based byte store, as exposed by `DataView` over an
`ArrayBuffer`; `new ArrayBuffer(n)` is the all-zero store. -/
def ByteBuf : Type := Nat → Nat

/-- `DataView.setUint8` (bytes are stored modulo 256). -/
def setUint8 (b : ByteBuf) (off v : Nat) : ByteBuf :=
  fun i => if i = off then v % 256 else b i

/-- `DataView.setUint16(off, v, true)`: little-endian 16-bit write. -/
def setUint16LE (b : ByteBuf) (off v : Nat) : ByteBuf :=
  setUint8 (setUint8 b off v) (off + 1) (v / 256)

/-- `DataView.setUint32(off, v, true)`: little-endian 32-bit write. -/
def setUint32LE (b : ByteBuf) (off v : Nat) : ByteBuf :=
  setUint8 (setUint8 (setUint8 (setUint8 b off v)
    (off + 1) (v / 256)) (off + 2) (v / 65536)) (off + 3) (v / 16777216)

/-- `DataView.setInt16(off, v, true)`: the value is reduced modulo
2^16 and stored as two little-endian bytes. -/
def setInt16LE (b : ByteBuf) (off : Nat) (v : Int) : ByteBuf :=
  let u := (v % 65536).toNat
  setUint8 (setUint8 b off u) (off + 1) (u / 256)

/-- Little-endian 16-bit read-back (for stating header/data facts). -/
def getUint16LE (b : ByteBuf) (off : Nat) : Nat :=
  b off + 256 * b (off + 1)

/-- Little-endian 32-bit read-back (for stating header facts). -/
def getUint32LE (b : ByteBuf) (off : Nat) : Nat :=
  b off + 256 * b (off + 1) + 65536 * b (off + 2) + 16777216 * b (off + 3)

/-- Helper of `writeString`: write the characters one byte at a time. -/
def writeChars (b : ByteBuf) (off : Nat) : List Char → ByteBuf
  | [] => b
  | c :: cs => writeChars (setUint8 b off c.toNat) (off + 1) cs

/-- `writeString` (audio-utils.ts lines 111–115): write
`string.charCodeAt(i)` at `offset + i` for each character. -/
def writeString (b : ByteBuf) (off : Nat) (s : String) : ByteBuf :=
  writeChars b off s.toList

/-- An `AudioBuffer`: channel count, sample rate, frame count, and the
per-channel sample data (`getChannelData(ch)[frame]`), with samples as
rationals. -/
structure AudioBuffer where
  numberOfChannels : Nat
  sampleRate : Nat
  length : Nat
  channelData : Nat → Nat → ℚ

/-- `Math.max(-1, Math.min(1, sample))`: the clamp applied to each
sample before conversion. -/
def jsClamp (sample : ℚ) : ℚ := max (-1) (min 1 sample)

/-- JS number-to-integer truncation (toward zero), as applied by
`DataView.setInt16`. -/
def ratTrunc (x : ℚ) : Int := if x < 0 then ⌈x⌉ else ⌊x⌋

/-- The 16-bit value computed for one sample: clamp, scale by 0x8000
for negative values and 0x7fff otherwise, then truncate. -/
def sampleToInt16 (sample : ℚ) : Int :=
  let s := jsClamp sample
  ratTrunc (if s < 0 then s * 32768 else s * 32767)

/-- The interleaved sample-writing loop of `audioBufferToWav`
(audio-utils.ts lines 96–106): for each frame, for each channel, write
the converted sample at the running offset (starting at 44) and
advance by 2.  Returns the store and the final offset. -/
def writeSamples (buffer : AudioBuffer) (init : ByteBuf) : ByteBuf × Nat :=
  (List.range buffer.length).foldl
    (fun acc i =>
      (List.range buffer.numberOfChannels).foldl
        (fun acc2 channel =>
          (setInt16LE acc2.1 acc2.2 (sampleToInt16 (buffer.channelData channel i)), acc2.2 + 2))
        acc)
    (init, 44)

/-- A `Blob`: its size and its bytes. -/
structure WavBlob where
  byteLength : Nat
  bytes : ByteBuf

/-- `audioBufferToWav` (audio-utils.ts lines 66–109): allocate
`44 + length` bytes, write the RIFF/WAVE header, then the interleaved
clamped 16-bit samples. -/
def audioBufferToWav (buffer : AudioBuffer) : WavBlob :=
  let numChannels := buffer.numberOfChannels
  let sampleRate := buffer.sampleRate
  let format := 1
  let bitDepth := 16
  let length := buffer.length * numChannels * (bitDepth / 8)
  let view : ByteBuf := fun _ => 0
  let view := writeString view 0 "RIFF"
  let view := setUint32LE view 4 (36 + length)
  let view := writeString view 8 "WAVE"
  let view := writeString view 12 "fmt "
  let view := setUint32LE view 16 16
  let view := setUint16LE view 20 format
  let view := setUint16LE view 22 numChannels
  let view := setUint32LE view 24 sampleRate
  let view := setUint32LE view 28 (sampleRate * numChannels * (bitDepth / 8))
  let view := setUint16LE view 32 (numChannels * (bitDepth / 8))
  let view := setUint16LE view 34 bitDepth
  let view := writeString view 36 "data"
  let view := setUint32LE view 40 length
  let view := (writeSamples buffer view).1
  { byteLength := 44 + length, bytes := view }

/-! ## FormBuilder / FormSection / DiscriminatedUnionSection -/

/-- A field condition `{ field, value }`. -/
structure FieldCondition where
  field : String
  value : JSValue
  deriving DecidableEq, Repr

/-- The parts of a `FormFieldDefinition` the verified code reads: the
dotted `key`, the `type` tag, the optional numeric `order`, the
optional `condition`, and the literal options. -/
structure FormFieldDefinition where
  key : String
  type : String
  order : Option Int := none
  condition : Option FieldCondition := none
  literalOptions : List JSValue := []
  deriving DecidableEq, Repr

/-- Form data as exposed by the external `tanstack-effect` form object:
a total map from field paths to values, absent fields reading as
`undefined`.  Distinct paths are independent slots. -/
def FormState : Type := String → JSValue

/-- Model of the external helper `getNestedValue(data, path)`. -/
def getNestedValue (data : FormState) (path : String) : JSValue := data path

/-- Model of the external `form.updateField(path, value)`. -/
def updateField (data : FormState) (path : String) (value : JSValue) : FormState :=
  fun p => if p = path then value else data p

/-- The condition check shared by `FormBuilder.renderField` (part_004
lines 1589–1597) and `FormSection.renderChildren` (lines 1106–1114): a
field carrying `condition = { field, value }` passes exactly when
`getNestedValue(form.data, field) === value`; a field without a
condition always passes. -/
def conditionSatisfied (data : FormState) (f : FormFieldDefinition) : Bool :=
  match f.condition with
  | some cond => getNestedValue data cond.field = cond.value
  | none => true

/-- Whether `FormSection.renderChildren` renders a child: the filter
`childField && childField.key` (a truthy key) followed by the condition
check in the mapping step. -/
def renderChildrenKeeps (data : FormState) (child : FormFieldDefinition) : Bool :=
  child.key ≠ "" && conditionSatisfied data child

/-- Whether a root entry survives the `allRootFields` filter of
`FormBuilder` (part_004 lines 1569–1572): a truthy `key` property with
no dot, not listed in `hiddenFields`. -/
def rootFieldListed (hiddenFields : List String) (key : String)
    (f : FormFieldDefinition) : Bool :=
  f.key ≠ "" && !(f.key.containsSubstr ".") && !(hiddenFields.contains key)

/-- Whether `FormBuilder` renders a root field: it must survive the
`allRootFields` filter and pass the condition check of `renderField`. -/
def rootFieldRendered (data : FormState) (hiddenFields : List String) (key : String)
    (f : FormFieldDefinition) : Bool :=
  rootFieldListed hiddenFields key f && conditionSatisfied data f

/-- `calculateFieldComplexity` (part_004 lines 1562–1567): 1 for
object/array fields, 0 otherwise. -/
def calculateFieldComplexity (f : FormFieldDefinition) : Int :=
  if f.type = "object" ∨ f.type = "array" then 1 else 0

/-- `field.order ?? Infinity`: the sort key used by both comparators,
with `⊤` standing for `Infinity`. -/
def orderKey (f : FormFieldDefinition) : WithTop Int :=
  match f.order with
  | some o => (o : WithTop Int)
  | none => ⊤

/-- The total preorder induced by the `allRootFields` comparator of
`FormBuilder` (part_004 lines 1573–1578): ascending `order ?? Infinity`,
ties broken by `calculateFieldComplexity`. -/
def rootSortLE (a b : String × FormFieldDefinition) : Prop :=
  orderKey a.2 < orderKey b.2 ∨
    (orderKey a.2 = orderKey b.2 ∧
      calculateFieldComplexity a.2 ≤ calculateFieldComplexity b.2)

instance : DecidableRel rootSortLE := fun a b => by
  unfold rootSortLE; infer_instance

/-- The total preorder induced by the `renderChildren` comparator of
`FormSection` (part_004 lines 1098–1104): ascending `order ?? Infinity`,
ties broken by `a.key.localeCompare(b.key)` (modelled as lexicographic
string comparison). -/
def sectionSortLE (a b : String × FormFieldDefinition) : Prop :=
  orderKey a.2 < orderKey b.2 ∨ (orderKey a.2 = orderKey b.2 ∧ a.2.key ≤ b.2.key)

instance : DecidableRel sectionSortLE := fun a b => by
  unfold sectionSortLE; infer_instance

instance : IsTotal (String × FormFieldDefinition) rootSortLE :=
  ⟨fun a b => by
    unfold rootSortLE
    rcases lt_trichotomy (orderKey a.2) (orderKey b.2) with h | h | h
    · exact Or.inl (Or.inl h)
    · rcases le_total (calculateFieldComplexity a.2) (calculateFieldComplexity b.2) with hc | hc
      · exact Or.inl (Or.inr ⟨h, hc⟩)
      · exact Or.inr (Or.inr ⟨h.symm, hc⟩)
    · exact Or.inr (Or.inl h)⟩

instance : IsTrans (String × FormFieldDefinition) rootSortLE :=
  ⟨fun a b c hab hbc => by
    unfold rootSortLE at hab hbc ⊢
    rcases hab with h1 | ⟨h1, h1c⟩
    · rcases hbc with h2 | ⟨h2, _⟩
      · exact Or.inl (h1.trans h2)
      · exact Or.inl (lt_of_lt_of_eq h1 h2)
    · rcases hbc with h2 | ⟨h2, h2c⟩
      · exact Or.inl (lt_of_eq_of_lt h1 h2)
      · exact Or.inr ⟨h1.trans h2, h1c.trans h2c⟩⟩

instance : IsTotal (String × FormFieldDefinition) sectionSortLE :=
  ⟨fun a b => by
    unfold sectionSortLE
    rcases lt_trichotomy (orderKey a.2) (orderKey b.2) with h | h | h
    · exact Or.inl (Or.inl h)
    · rcases le_total a.2.key b.2.key with hc | hc
      · exact Or.inl (Or.inr ⟨h, hc⟩)
      · exact Or.inr (Or.inr ⟨h.symm, hc⟩)
    · exact Or.inr (Or.inl h)⟩

instance : IsTrans (String × FormFieldDefinition) sectionSortLE :=
  ⟨fun a b c hab hbc => by
    unfold sectionSortLE at hab hbc ⊢
    rcases hab with h1 | ⟨h1, h1c⟩
    · rcases hbc with h2 | ⟨h2, _⟩
      · exact Or.inl (h1.trans h2)
      · exact Or.inl (lt_of_lt_of_eq h1 h2)
    · rcases hbc with h2 | ⟨h2, h2c⟩
      · exact Or.inl (lt_of_eq_of_lt h1 h2)
      · exact Or.inr ⟨h1.trans h2, h1c.trans h2c⟩⟩

/-- `allRootFields`: filter the root entries, then sort with the root
comparator (`Array.prototype.sort` is stable, as is insertion sort, and
the comparator is consistent, so insertion sort computes its result). -/
def allRootFields (hiddenFields : List String)
    (fields : List (String × FormFieldDefinition)) :
    List (String × FormFieldDefinition) :=
  (fields.filter (fun kv => rootFieldListed hiddenFields kv.1 kv.2)).insertionSort rootSortLE

/-- The child list `FormSection.renderChildren` iterates over: filter
out entries without a truthy `key`, then sort with the section
comparator. -/
def renderChildrenOrder (children : List (String × FormFieldDefinition)) :
    List (String × FormFieldDefinition) :=
  (children.filter (fun kv => kv.2.key ≠ "")).insertionSort sectionSortLE

/-- Whether `handleTypeChange` of `DiscriminatedUnionSection` (part_004
lines 874–888) clears a child entry: it is not the discriminant entry,
it has a condition, and the condition value differs from the newly
selected type. -/
def clearsOnTypeChange (discriminantKey newType : String)
    (kv : String × FormFieldDefinition) : Bool :=
  kv.1 ≠ discriminantKey &&
    (match kv.2.condition with
     | some cond => cond.value ≠ JSValue.str newType
     | none => false)

/-- `handleTypeChange`: set the discriminant field to the new type, then
clear (set to `undefined`) every child entry of the other variants. -/
def handleTypeChange (children : List (String × FormFieldDefinition))
    (discriminantKey : String) (data : FormState) (newType : String) : FormState :=
  let data := updateField data discriminantKey (.str newType)
  children.foldl
    (fun acc kv =>
      if clearsOnTypeChange discriminantKey newType kv then updateField acc kv.1 .undefined
      else acc)
    data

/-! ## FormBuilder wizard navigation -/

/-- A wizard interaction: the Previous button, the Next button, or a
click on the step dot with index `i`. -/
inductive WizardEvent : Type where
  | previous : WizardEvent
  | next : WizardEvent
  | dot : Nat → WizardEvent
  deriving DecidableEq, Repr

/-- One `setCurrentStep` transition of wizard mode (part_004 lines
1677–1690 and 1705–1722): Previous yields `Math.max(0, s - 1)`, Next
yields `Math.min(totalSteps - 1, s + 1)`, and the dot for index `i`
yields `i`. -/
def wizardStep (totalSteps s : Int) : WizardEvent → Int
  | .previous => max 0 (s - 1)
  | .next => min (totalSteps - 1) (s + 1)
  | .dot i => (i : Int)

/-- A wizard event the rendered UI can produce: dots exist only for the
indices `0 .. totalSteps - 1` of `rootFields`. -/
def validWizardEvent (totalSteps : Int) : WizardEvent → Prop
  | .dot i => (i : Int) < totalSteps
  | _ => True

/-- `currentStep` after a sequence of clicks, starting from the initial
`useState(0)`. -/
def runWizard (totalSteps : Int) (events : List WizardEvent) : Int :=
  events.foldl (wizardStep totalSteps) 0

/-! ## ChatView voice recording -/

/-- Observable actions of one toggle: a `new MediaRecorder(...)` plus
`recorder.start()`, or a `mediaRecorder.stop()`. -/
inductive VoiceAction : Type where
  | createdRecorder : VoiceAction
  | stoppedRecorder : VoiceAction
  deriving DecidableEq, Repr

/-- The recording-related state of `ChatView`: the `isRecording` flag,
the activity status of every `MediaRecorder` created so far (indexed by
creation order, `true` = not yet inactive), and the `mediaRecorder`
React state holding the index of the current recorder. -/
structure ChatVoiceState where
  isRecording : Bool
  recorders : List Bool
  mediaRecorder : Option Nat

/-- Initial state: not recording, no recorder created. -/
def initVoiceState : ChatVoiceState :=
  { isRecording := false, recorders := [], mediaRecorder := none }

/-- `startRecording` (part_002 lines 240–299): when `getUserMedia`
resolves (`micOk`), create and start one recorder, store it in the
`mediaRecorder` state and set `isRecording`; when it throws, the catch
only logs and the state is unchanged. -/
def startRecording (micOk : Bool) (st : ChatVoiceState) :
    ChatVoiceState × List VoiceAction :=
  if micOk then
    ({ isRecording := true
       recorders := st.recorders ++ [true]
       mediaRecorder := some st.recorders.length }, [.createdRecorder])
  else (st, [])

/-- `stopRecording` (part_002 lines 302–309): if a current recorder
exists and is not inactive, stop it (its `onstop` marks it inactive and
clears the `mediaRecorder` state); always clear `isRecording`. -/
def stopRecording (st : ChatVoiceState) : ChatVoiceState × List VoiceAction :=
  match st.mediaRecorder with
  | some i =>
      if st.recorders.getD i false then
        ({ isRecording := false
           recorders := st.recorders.set i false
           mediaRecorder := none }, [.stoppedRecorder])
      else ({ st with isRecording := false }, [])
  | none => ({ st with isRecording := false }, [])

/-- `toggleRecording` (part_002 lines 312–318). -/
def toggleRecording (micOk : Bool) (st : ChatVoiceState) :
    ChatVoiceState × List VoiceAction :=
  if st.isRecording then stopRecording st else startRecording micOk st

/-- State after a sequence of toggle clicks (each with its own
`getUserMedia` outcome), starting from the initial state. -/
def runVoice (events : List Bool) : ChatVoiceState :=
  events.foldl (fun st micOk => (toggleRecording micOk st).1) initVoiceState

/-- The session invariant of the recording state machine: at most one
active recorder; none when not recording; when recording, the current
`mediaRecorder` points at an active recorder; the current index is in
range; and every active recorder is the current one. -/
def voiceInv (st : ChatVoiceState) : Prop :=
  st.recorders.count true ≤ 1 ∧
  (st.isRecording = false → st.recorders.count true = 0) ∧
  (st.isRecording = true →
    ∃ i, st.mediaRecorder = some i ∧ st.recorders.getD i false = true) ∧
  (∀ i, st.mediaRecorder = some i → i < st.recorders.length) ∧
  (∀ j, st.recorders.getD j false = true → st.mediaRecorder = some j)

/-- The 44-byte header produced by `audioBufferToWav` before the sample
loop runs (named for the proofs; `audioBufferToWav` itself mirrors the
source and this term is definitionally its header-writing prefix). -/
def wavHeaderView (buffer : AudioBuffer) : ByteBuf :=
  setUint32LE
    (writeString
      (setUint16LE
        (setUint16LE
          (setUint32LE
            (setUint32LE
              (setUint16LE
                (setUint16LE
                  (setUint32LE
                    (writeString
                      (writeString
                        (setUint32LE
                          (writeString (fun _ => 0) 0 "RIFF")
                          4 (36 + buffer.length * buffer.numberOfChannels * 2))
                        8 "WAVE")
                      12 "fmt ")
                    16 16)
                  20 1)
                22 buffer.numberOfChannels)
              24 buffer.sampleRate)
            28 (buffer.sampleRate * buffer.numberOfChannels * 2))
          32 (buffer.numberOfChannels * 2))
        34 16)
      36 "data")
    40 (buffer.length * buffer.numberOfChannels * 2)

/-! ## Theorems -/

/-- **C1** (counterexample).  The claim says the failure
handling forwards the upstream HTTP status: a request whose upstream
transcription call fails with status `S` is answered with status `S`.
On the code this is false: with a valid request whose standard call
throws and whose fallback streaming call fails with upstream status
401, the handler returns 500, not 401 — the catch-all maps every
upstream failure to 500. -/
theorem C1_status_not_forwarded :
    (createSpeechToTextHandler
        { apiKeyPresent := true
          authenticate := none
          formData := .ok { audio := some [1, 2, 3], language := none, model := none }
          upstream :=
            { standardResult := .error "SDK transcription threw"
              streamingResponse := { ok := false, status := 401, body := none }
              jsonParse := fun _ => none } }).status = 500 ∧
    (500 : Nat) ≠ 401 := by
  exact ⟨rfl, by decide⟩

/-- **C1** (amended).  The handler does not forward upstream HTTP status
codes: for every request that passes the key/auth/audio checks and
whose standard transcription call throws, if the fallback streaming
call fails with upstream HTTP status `S`, the handler responds with
status 500 and a body with error "Failed to transcribe audio" and details,
where the details name the upstream status `S`. -/
theorem C1_upstream_failure_yields_500 (env : HandlerEnv) (fd : FormDataModel)
    (bytes : List Nat) (msg : String) (S : Nat)
    (hkey : env.apiKeyPresent = true)
    (hauth : env.authenticate ≠ some false)
    (hfd : env.formData = .ok fd)
    (haudio : fd.audio = some bytes)
    (hstd : env.upstream.standardResult = .error msg)
    (hok : env.upstream.streamingResponse.ok = false)
    (hS : env.upstream.streamingResponse.status = S) :
    (createSpeechToTextHandler env).status = 500 ∧
      (createSpeechToTextHandler env).body =
        transcribeFailedBody ("OpenAI streaming transcription failed: " ++ toString S) := by
  unfold createSpeechToTextHandler transcribeAudio transcribeStreaming
  rw [hfd, hstd]
  simp [hkey, hauth, haudio, hok, hS]

/-- **C1** (witness for the amended theorem). -/
theorem C1_upstream_failure_yields_500_witness :
    (createSpeechToTextHandler
        { apiKeyPresent := true
          authenticate := some true
          formData := .ok { audio := some [7], language := none, model := none }
          upstream :=
            { standardResult := .error "SDK transcription threw"
              streamingResponse := { ok := false, status := 503, body := none }
              jsonParse := fun _ => none } }).status = 500 ∧
      (createSpeechToTextHandler
        { apiKeyPresent := true
          authenticate := some true
          formData := .ok { audio := some [7], language := none, model := none }
          upstream :=
            { standardResult := .error "SDK transcription threw"
              streamingResponse := { ok := false, status := 503, body := none }
              jsonParse := fun _ => none } }).body =
        transcribeFailedBody ("OpenAI streaming transcription failed: " ++ toString 503) :=
  C1_upstream_failure_yields_500 _ _ [7] "SDK transcription threw" 503
    rfl (by decide) rfl rfl rfl rfl rfl

/-- **C2**.  The checks of the handler run in this order and decide the
response: missing `OPENAI_API_KEY` gives 500 with the missing-key body;
otherwise a configured `authenticate` returning false gives 401
with error "Unauthorized"; otherwise, when the form data parses and
has no `audio` entry, 400 with error "Audio file is required";
otherwise, when transcription succeeds, 200 with the reshaped
`{ text, language? }` body. -/
theorem C2_handler_check_order (env : HandlerEnv) :
    (env.apiKeyPresent = false →
      createSpeechToTextHandler env =
        { status := 500
          body := .obj [("error", .str "Missing OPENAI_API_KEY environment variable")] }) ∧
    (env.apiKeyPresent = true → env.authenticate = some false →
      createSpeechToTextHandler env =
        { status := 401, body := .obj [("error", .str "Unauthorized")] }) ∧
    (∀ fd, env.apiKeyPresent = true → env.authenticate ≠ some false →
      env.formData = .ok fd → fd.audio = none →
      createSpeechToTextHandler env =
        { status := 400, body := .obj [("error", .str "Audio file is required")] }) ∧
    (∀ fd bytes result, env.apiKeyPresent = true → env.authenticate ≠ some false →
      env.formData = .ok fd → fd.audio = some bytes →
      (transcribeAudio env.upstream).1 = .ok result →
      createSpeechToTextHandler env =
        { status := 200, body := successBody result }) := by
  refine ⟨fun hkey => ?_, fun hkey hauth => ?_, fun fd hkey hauth hfd haudio => ?_,
    fun fd bytes result hkey hauth hfd haudio htr => ?_⟩
  · simp [createSpeechToTextHandler, hkey]
  · simp [createSpeechToTextHandler, hkey, hauth]
  · unfold createSpeechToTextHandler
    rw [hfd]
    simp [hkey, hauth, haudio]
  · unfold createSpeechToTextHandler
    rw [hfd]
    simp [hkey, hauth, haudio, htr]

/-- **C2** (witness): the four branches at concrete requests. -/
theorem C2_handler_check_order_witness :
    (createSpeechToTextHandler
        { apiKeyPresent := false
          authenticate := none
          formData := .error "unused"
          upstream :=
            { standardResult := .error "unused"
              streamingResponse := { ok := false, status := 0, body := none }
              jsonParse := fun _ => none } } =
      { status := 500
        body := .obj [("error", .str "Missing OPENAI_API_KEY environment variable")] }) ∧
    (createSpeechToTextHandler
        { apiKeyPresent := true
          authenticate := some false
          formData := .error "unused"
          upstream :=
            { standardResult := .error "unused"
              streamingResponse := { ok := false, status := 0, body := none }
              jsonParse := fun _ => none } } =
      { status := 401, body := .obj [("error", .str "Unauthorized")] }) ∧
    (createSpeechToTextHandler
        { apiKeyPresent := true
          authenticate := none
          formData := .ok { audio := none, language := none, model := none }
          upstream :=
            { standardResult := .error "unused"
              streamingResponse := { ok := false, status := 0, body := none }
              jsonParse := fun _ => none } } =
      { status := 400, body := .obj [("error", .str "Audio file is required")] }) ∧
    (createSpeechToTextHandler
        { apiKeyPresent := true
          authenticate := some true
          formData := .ok { audio := some [1], language := none, model := none }
          upstream :=
            { standardResult := .ok { text := "hello", language := some "en" }
              streamingResponse := { ok := false, status := 0, body := none }
              jsonParse := fun _ => none } } =
      { status := 200, body := successBody { text := "hello", language := some "en" } }) := by
  refine ⟨(C2_handler_check_order _).1 rfl, (C2_handler_check_order _).2.1 rfl rfl,
    (C2_handler_check_order _).2.2.1 _ rfl (by decide) rfl rfl,
    (C2_handler_check_order _).2.2.2 _ [1] _ rfl (by decide) rfl rfl rfl⟩

/-- **C3**.  `transcribeAudio` always performs exactly one standard
call; when that call succeeds the call trace is just the standard call
and the reshaped result is returned; when it throws, the trace is the
standard call followed by exactly one streaming fallback call whose
outcome — success or error — is returned unchanged, so a fallback
error propagates to the caller.  The trace has no repeated calls, so
there are no retries and no caching. -/
theorem C3_single_fallback (env : UpstreamEnv) :
    ((transcribeAudio env).2.count .standard = 1) ∧
    (∀ result, env.standardResult = .ok result →
      (transcribeAudio env).2 = [.standard] ∧
      (transcribeAudio env).1 = .ok { text := result.text, language := result.language }) ∧
    (∀ msg, env.standardResult = .error msg →
      (transcribeAudio env).2 = [.standard, .streaming] ∧
      (transcribeAudio env).1 = transcribeStreaming env.jsonParse env.streamingResponse) ∧
    (∀ msg e, env.standardResult = .error msg →
      transcribeStreaming env.jsonParse env.streamingResponse = .error e →
      (transcribeAudio env).1 = .error e) := by
  unfold transcribeAudio
  rcases h : env.standardResult with msg | result
  · exact ⟨by simp [List.count_cons], fun r hr => by simp at hr, fun m hm => ⟨rfl, rfl⟩,
      fun m e hm he => he⟩
  · exact ⟨by simp [List.count_cons], fun r hr => by cases hr; exact ⟨rfl, rfl⟩,
      fun m hm => by simp at hm, fun m e hm he => by simp at hm⟩

/-- **C3** (witness). -/
theorem C3_single_fallback_witness :
    ((transcribeAudio
        { standardResult := .error "boom"
          streamingResponse := { ok := true, status := 200, body := some ["data: hi"] }
          jsonParse := fun _ => none }).2 = [.standard, .streaming]) ∧
    ((transcribeAudio
        { standardResult := .error "boom"
          streamingResponse := { ok := true, status := 200, body := some ["data: hi"] }
          jsonParse := fun _ => none }).1 =
      transcribeStreaming (fun _ => none) { ok := true, status := 200, body := some ["data: hi"] }) :=
  (C3_single_fallback _).2.2.1 "boom" rfl

/-- **C8** (counterexample).  The claim says every call resolves to a
pair in which exactly one of `data` and `error` is null.  When the
fetch completes ok and `response.json()` resolves to the JSON literal
`null`, the code returns `data = json = null` together with
`error = null`: both slots are null, refuting the claim. -/
theorem C8_null_body_both_null :
    (useSpeechToTextTranscribe (.ok { ok := true, json := .ok .null })).1.data =
        JSValue.null ∧
      (useSpeechToTextTranscribe (.ok { ok := true, json := .ok .null })).1.error =
        JSValue.null :=
  ⟨rfl, rfl⟩

/-- **C8** (amended).  Every call of `transcribe` resolves — the model
is a total function — and on every path the state written last has
`isLoading = false` and agrees with the returned pair; the pair is
`\x7b data: json, error: null \x7d` on an ok response,
`\x7b data: null, error: json \x7d` on a non-ok response, and
`\x7b data: null, error: \x7b error: "Network error", details \x7d \x7d`
when the fetch or `response.json()` throws.  Exactly one of `data` and
`error` is null on every throwing path, and on a parsed-body path
whenever the parsed JSON body is itself non-null (body `null` makes
both slots null, as the counterexample shows). -/
theorem C8_transcribe_result_pairs (fetchResult : Except String HookFetchResponse) :
    ((useSpeechToTextTranscribe fetchResult).2.isLoading = false) ∧
    ((useSpeechToTextTranscribe fetchResult).2.data =
      (useSpeechToTextTranscribe fetchResult).1.data) ∧
    ((useSpeechToTextTranscribe fetchResult).2.error =
      (useSpeechToTextTranscribe fetchResult).1.error) ∧
    (∀ response json, fetchResult = .ok response → response.json = .ok json →
      response.ok = true →
      (useSpeechToTextTranscribe fetchResult).1 = ⟨json, .null⟩) ∧
    (∀ response json, fetchResult = .ok response → response.json = .ok json →
      response.ok = false →
      (useSpeechToTextTranscribe fetchResult).1 = ⟨.null, json⟩) ∧
    (∀ err, fetchResult = .error err →
      (useSpeechToTextTranscribe fetchResult).1 = ⟨.null, networkErrorBody err⟩) ∧
    (∀ response err, fetchResult = .ok response → response.json = .error err →
      (useSpeechToTextTranscribe fetchResult).1 = ⟨.null, networkErrorBody err⟩) ∧
    (∀ response json, fetchResult = .ok response → response.json = .ok json →
      response.ok = true → json ≠ .null →
      ((useSpeechToTextTranscribe fetchResult).1.data ≠ JSValue.null ∧
        (useSpeechToTextTranscribe fetchResult).1.error = JSValue.null)) ∧
    (∀ response json, fetchResult = .ok response → response.json = .ok json →
      response.ok = false → json ≠ .null →
      ((useSpeechToTextTranscribe fetchResult).1.data = JSValue.null ∧
        (useSpeechToTextTranscribe fetchResult).1.error ≠ JSValue.null)) ∧
    (∀ err, fetchResult = .error err →
      ((useSpeechToTextTranscribe fetchResult).1.data = JSValue.null ∧
        (useSpeechToTextTranscribe fetchResult).1.error ≠ JSValue.null)) ∧
    (∀ response err, fetchResult = .ok response → response.json = .error err →
      ((useSpeechToTextTranscribe fetchResult).1.data = JSValue.null ∧
        (useSpeechToTextTranscribe fetchResult).1.error ≠ JSValue.null)) := by
  have hnet : ∀ err, networkErrorBody err ≠ JSValue.null := by
    intro err h
    simp [networkErrorBody] at h
  rcases fetchResult with err | ⟨rok, rjson⟩
  · exact ⟨rfl, rfl, rfl,
      fun resp json h => Except.noConfusion h,
      fun resp json h => Except.noConfusion h,
      fun e h => by cases h; exact rfl,
      fun resp e h => Except.noConfusion h,
      fun resp json h => Except.noConfusion h,
      fun resp json h => Except.noConfusion h,
      fun e h => by cases h; exact ⟨rfl, hnet err⟩,
      fun resp e h => Except.noConfusion h⟩
  · rcases rjson with jerr | json
    · exact ⟨rfl, rfl, rfl,
        fun resp json h hj hok => by cases h; simp at hj,
        fun resp json h hj hok => by cases h; simp at hj,
        fun e h => Except.noConfusion h,
        fun resp e h hj => by cases h; injection hj with h2; cases h2; exact rfl,
        fun resp json h hj hok hnn => by cases h; simp at hj,
        fun resp json h hj hok hnn => by cases h; simp at hj,
        fun e h => Except.noConfusion h,
        fun resp e h hj => by
          cases h; injection hj with h2; cases h2; exact ⟨rfl, hnet jerr⟩⟩
    · cases rok
      · exact ⟨rfl, rfl, rfl,
          fun resp j h hj hok => by cases h; simp at hok,
          fun resp j h hj hok => by
            cases h; injection hj with h2; cases h2; exact rfl,
          fun e h => Except.noConfusion h,
          fun resp e h hj => by cases h; simp at hj,
          fun resp j h hj hok hnn => by cases h; simp at hok,
          fun resp j h hj hok hnn => by
            cases h; injection hj with h2; cases h2; exact ⟨rfl, hnn⟩,
          fun e h => Except.noConfusion h,
          fun resp e h hj => by cases h; simp at hj⟩
      · exact ⟨rfl, rfl, rfl,
          fun resp j h hj hok => by
            cases h; injection hj with h2; cases h2; exact rfl,
          fun resp j h hj hok => by cases h; simp at hok,
          fun e h => Except.noConfusion h,
          fun resp e h hj => by cases h; simp at hj,
          fun resp j h hj hok hnn => by
            cases h; injection hj with h2; cases h2; exact ⟨hnn, rfl⟩,
          fun resp j h hj hok hnn => by cases h; simp at hok,
          fun e h => Except.noConfusion h,
          fun resp e h hj => by cases h; simp at hj⟩

/-- **C8** (witness): an ok response with a non-null object body yields
data equal to the body and a null error. -/
theorem C8_transcribe_result_pairs_witness :
    ((useSpeechToTextTranscribe
        (.ok { ok := true, json := .ok (.obj [("text", .str "hi")]) })).1 =
      ⟨.obj [("text", .str "hi")], .null⟩) ∧
    ((useSpeechToTextTranscribe
        (.ok { ok := true, json := .ok (.obj [("text", .str "hi")]) })).1.data ≠
        JSValue.null ∧
      (useSpeechToTextTranscribe
        (.ok { ok := true, json := .ok (.obj [("text", .str "hi")]) })).1.error =
        JSValue.null) :=
  ⟨(C8_transcribe_result_pairs _).2.2.2.1 _ _ rfl rfl rfl,
    (C8_transcribe_result_pairs _).2.2.2.2.2.2.2.1 _ _ rfl rfl rfl (by decide)⟩

/-- **C4**.  In wizard mode with at least one root step field, the step
index is a bounded state: starting from `currentStep = 0`, any sequence
of Previous clicks (`max(0, s-1)`), Next clicks
(`min(totalSteps-1, s+1)`) and step-dot clicks on a rendered index
keeps `currentStep` in `[0, totalSteps-1]`. -/
theorem C4_wizard_step_bounded (totalSteps : Int) (events : List WizardEvent)
    (hpos : 1 ≤ totalSteps)
    (hvalid : ∀ e ∈ events, validWizardEvent totalSteps e) :
    0 ≤ runWizard totalSteps events ∧ runWizard totalSteps events ≤ totalSteps - 1 := by
  have key : ∀ (evs : List WizardEvent) (s : Int),
      (∀ e ∈ evs, validWizardEvent totalSteps e) →
      0 ≤ s → s ≤ totalSteps - 1 →
      0 ≤ evs.foldl (wizardStep totalSteps) s ∧
        evs.foldl (wizardStep totalSteps) s ≤ totalSteps - 1 := by
    intro evs
    induction evs with
    | nil => intro s _ h0 h1; exact ⟨h0, h1⟩
    | cons e rest ih =>
        intro s hv h0 h1
        apply ih
        · intro x hx; exact hv x (List.mem_cons_of_mem _ hx)
        · cases e with
          | previous => simp only [wizardStep]; omega
          | next => simp only [wizardStep]; omega
          | dot i => simp only [wizardStep]; omega
        · cases e with
          | previous => simp only [wizardStep]; omega
          | next => simp only [wizardStep]; omega
          | dot i =>
              have hd := hv (.dot i) (List.mem_cons_self _ _)
              simp only [validWizardEvent] at hd
              simp only [wizardStep]; omega
  exact key events 0 hvalid le_rfl (by omega)

/-- **C4** (witness): three steps, a mix of clicks. -/
theorem C4_wizard_step_bounded_witness :
    0 ≤ runWizard 3 [.next, .next, .next, .dot 0, .previous, .dot 2] ∧
      runWizard 3 [.next, .next, .next, .dot 0, .previous, .dot 2] ≤ 3 - 1 :=
  C4_wizard_step_bounded 3 _ (by decide)
    (by intro e he; fin_cases he <;> simp [validWizardEvent])

/-- Helper: a `getD` read of `true` is within bounds. -/
theorem getD_true_lt_length {l : List Bool} {j : Nat} (h : l.getD j false = true) :
    j < l.length := by
  by_contra hge
  rw [List.getD_eq_getElem?_getD, List.getElem?_eq_none (by omega)] at h
  simp at h

/-- Helper: a `getD` read of `true` comes from the stored element. -/
theorem getD_true_getElem? {l : List Bool} {j : Nat} (h : l.getD j false = true) :
    l[j]? = some true := by
  rw [List.getD_eq_getElem?_getD] at h
  rcases hx : l[j]? with _ | b
  · rw [hx] at h; simp at h
  · rw [hx] at h
    simp only [Option.getD_some] at h
    rw [h]

/-- Helper: one toggle click preserves the recording-session invariant. -/
theorem toggle_preserves_voiceInv (micOk : Bool) (st : ChatVoiceState)
    (h : voiceInv st) : voiceInv (toggleRecording micOk st).1 := by
  obtain ⟨h1, h2, h3, h4, h5⟩ := h
  rw [toggleRecording]
  cases hrec : st.isRecording
  · -- not recording: startRecording
    rw [if_neg (by simp)]
    rw [startRecording]
    cases micOk
    · rw [if_neg (by simp)]
      exact ⟨h1, h2, fun hh => absurd hh (by simp [hrec]), h4, h5⟩
    · rw [if_pos rfl]
      have hcount0 : st.recorders.count true = 0 := h2 hrec
      refine ⟨?_, ?_, ?_, ?_, ?_⟩
      · simp [List.count_append, hcount0]
      · intro hh; simp at hh
      · intro _
        refine ⟨st.recorders.length, rfl, ?_⟩
        rw [List.getD_eq_getElem?_getD, List.getElem?_concat_length]
        rfl
      · intro i hi
        simp only [Option.some.injEq] at hi
        subst hi
        simp
      · intro j hj
        have hjlt := getD_true_lt_length hj
        have hje := getD_true_getElem? hj
        simp only [List.length_append, List.length_cons, List.length_nil] at hjlt
        rcases Nat.lt_or_ge j st.recorders.length with hlt | hge
        · exfalso
          rw [List.getElem?_append_left hlt] at hje
          have hmem : true ∈ st.recorders := List.mem_iff_getElem?.2 ⟨j, hje⟩
          have := List.count_eq_zero.1 hcount0
          exact this hmem
        · have : j = st.recorders.length := by omega
          simp [this]
  · -- recording: stopRecording
    rw [if_pos (by simp [hrec])]
    obtain ⟨i, hcur, hact⟩ := h3 hrec
    have hilt := getD_true_lt_length hact
    simp only [stopRecording, hcur]
    rw [if_pos hact]
    show voiceInv
      { isRecording := false, recorders := st.recorders.set i false, mediaRecorder := none }
    have hzero : (st.recorders.set i false).count true = 0 := by
      rw [List.count_eq_zero]
      intro hmem
      obtain ⟨n, hn⟩ := List.mem_iff_getElem?.1 hmem
      by_cases hni : n = i
      · subst hni
        rw [List.getElem?_set_self hilt] at hn
        simp at hn
      · rw [List.getElem?_set_ne (Ne.symm hni)] at hn
        have hact2 : st.recorders.getD n false = true := by
          rw [List.getD_eq_getElem?_getD, hn]; rfl
        have := h5 n hact2
        rw [hcur] at this
        simp only [Option.some.injEq] at this
        exact hni this.symm
    refine ⟨le_of_eq_of_le hzero (Nat.zero_le 1), fun _ => hzero, fun hh => by simp at hh,
      fun i2 hi2 => by simp at hi2, fun j hj => ?_⟩
    exfalso
    have hmem : true ∈ st.recorders.set i false :=
      List.mem_iff_getElem?.2 ⟨j, getD_true_getElem? hj⟩
    exact List.count_eq_zero.1 hzero hmem

/-- Helper: the invariant is carried through any toggle sequence. -/
theorem foldl_voiceInv (events : List Bool) (st : ChatVoiceState) (h : voiceInv st) :
    voiceInv (events.foldl (fun s m => (toggleRecording m s).1) st) := by
  induction events generalizing st with
  | nil => exact h
  | cons e rest ih => exact ih _ (toggle_preserves_voiceInv e st h)

/-- Helper: the initial state satisfies the invariant. -/
theorem voiceInv_init : voiceInv initVoiceState := by
  refine ⟨by simp [initVoiceState], fun _ => by simp [initVoiceState],
    fun hh => absurd hh (by simp [initVoiceState]), fun i hi => by simp [initVoiceState] at hi,
    fun j hj => by simp [initVoiceState, List.getD] at hj⟩

/-- Helper: every reachable recording state satisfies the invariant. -/
theorem runVoice_voiceInv (events : List Bool) : voiceInv (runVoice events) :=
  foldl_voiceInv events initVoiceState voiceInv_init

/-- **C7**.  ChatView keeps a single recording session: after any
sequence of toggle clicks, at most one created MediaRecorder is still
active; a toggle while `isRecording` performs exactly one stop and
creates nothing; and a recorder is created only from a state with
`isRecording` false. -/
theorem C7_single_recording_session (events : List Bool) :
    ((runVoice events).recorders.count true ≤ 1) ∧
    (∀ micOk, (runVoice events).isRecording = true →
      (toggleRecording micOk (runVoice events)).2 = [.stoppedRecorder]) ∧
    (∀ micOk st, VoiceAction.createdRecorder ∈ (toggleRecording micOk st).2 →
      st.isRecording = false) := by
  obtain ⟨h1, h2, h3, h4, h5⟩ := runVoice_voiceInv events
  refine ⟨h1, fun micOk hrec => ?_, fun micOk st hmem => ?_⟩
  · obtain ⟨i, hcur, hact⟩ := h3 hrec
    rw [toggleRecording, if_pos (by simp [hrec])]
    simp only [stopRecording, hcur]
    rw [if_pos hact]
  · cases hrec : st.isRecording
    · rfl
    · exfalso
      rw [toggleRecording, if_pos (by simp [hrec])] at hmem
      rcases hcur : st.mediaRecorder with _ | i
      · simp only [stopRecording, hcur] at hmem
        simp at hmem
      · simp only [stopRecording, hcur] at hmem
        by_cases hact : st.recorders.getD i false = true
        · rw [if_pos hact] at hmem; simp at hmem
        · rw [if_neg hact] at hmem; simp at hmem

/-- **C7** (witness): a concrete click sequence. -/
theorem C7_single_recording_session_witness :
    ((runVoice [true, true, false, true]).recorders.count true ≤ 1) ∧
      ((toggleRecording true initVoiceState).2 = [.createdRecorder] →
        initVoiceState.isRecording = false) :=
  ⟨(C7_single_recording_session [true, true, false, true]).1,
    fun h => (C7_single_recording_session []).2.2 true initVoiceState (by rw [h]; simp)⟩

/-- **C5**.  A field carrying `condition = { field: cf, value: v }` is
rendered iff `getNestedValue(form.data, cf)` equals `v` — in
`FormSection.renderChildren` for children, and in
`FormBuilder.renderField` for listed root fields; a child without a
condition is always rendered, and a condition-free root field is
rendered iff its key is not in `hiddenFields` (given a well-formed
dot-free key). -/
theorem C5_condition_rendering (data : FormState) (hiddenFields : List String)
    (key : String) (f child : FormFieldDefinition) (hkey : child.key ≠ "") :
    (∀ cf v, child.condition = some ⟨cf, v⟩ →
      (renderChildrenKeeps data child = true ↔ getNestedValue data cf = v)) ∧
    (child.condition = none → renderChildrenKeeps data child = true) ∧
    (∀ cf v, f.condition = some ⟨cf, v⟩ → rootFieldListed hiddenFields key f = true →
      (rootFieldRendered data hiddenFields key f = true ↔ getNestedValue data cf = v)) ∧
    (f.condition = none → f.key ≠ "" → f.key.containsSubstr "." = false →
      (rootFieldRendered data hiddenFields key f = true ↔
        hiddenFields.contains key = false)) := by
  refine ⟨fun cf v hc => ?_, fun hc => ?_, fun cf v hc hl => ?_, fun hc hk hdot => ?_⟩
  · simp [renderChildrenKeeps, conditionSatisfied, hc, hkey]
  · simp [renderChildrenKeeps, conditionSatisfied, hc, hkey]
  · simp [rootFieldRendered, conditionSatisfied, hc, hl]
  · simp [rootFieldRendered, rootFieldListed, conditionSatisfied, hc, hk, hdot]

/-- **C5** (witness): a child whose condition matches the data is kept,
and one with a mismatching condition is dropped. -/
theorem C5_condition_rendering_witness :
    (renderChildrenKeeps (fun p => if p = "fees.type" then .str "flat" else .undefined)
        { key := "fees.amount", type := "number"
          condition := some ⟨"fees.type", .str "flat"⟩ } = true ↔
      getNestedValue (fun p => if p = "fees.type" then .str "flat" else .undefined)
        "fees.type" = .str "flat") :=
  (C5_condition_rendering _ [] "fees.amount"
      { key := "fees.amount", type := "number" }
      { key := "fees.amount", type := "number"
        condition := some ⟨"fees.type", .str "flat"⟩ }
      (by decide)).1 "fees.type" (.str "flat") rfl

/-- Helper: with distinct keys, membership in a children list determines
the associated field definition. -/
theorem eq_of_mem_of_nodup_keys {l : List (String × FormFieldDefinition)} {k : String}
    {c c2 : FormFieldDefinition} (hnodup : (l.map Prod.fst).Nodup)
    (h1 : (k, c) ∈ l) (h2 : (k, c2) ∈ l) : c = c2 := by
  rcases List.mem_iff_getElem.1 h1 with ⟨n1, hn1, he1⟩
  rcases List.mem_iff_getElem.1 h2 with ⟨n2, hn2, he2⟩
  have hn1m : n1 < (l.map Prod.fst).length := by simpa using hn1
  have hn2m : n2 < (l.map Prod.fst).length := by simpa using hn2
  have hm12 : (l.map Prod.fst).get ⟨n1, hn1m⟩ = (l.map Prod.fst).get ⟨n2, hn2m⟩ := by
    simp only [List.get_eq_getElem, List.getElem_map]
    rw [he1, he2]
  have hnn : (⟨n1, hn1m⟩ : Fin (l.map Prod.fst).length) = ⟨n2, hn2m⟩ :=
    (hnodup.get_inj_iff).1 hm12
  have hnn2 : n1 = n2 := congrArg Fin.val hnn
  subst hnn2
  have heq : ((k, c) : String × FormFieldDefinition) = (k, c2) := he1.symm.trans he2
  exact congrArg Prod.snd heq

/-- Helper: value of the clearing fold of `handleTypeChange` at a path:
`undefined` when some entry with that key clears, otherwise the
accumulator value. -/
theorem clear_foldl_at (dk nt : String) (children : List (String × FormFieldDefinition))
    (acc : FormState) (p : String) :
    (children.foldl
        (fun acc kv =>
          if clearsOnTypeChange dk nt kv then updateField acc kv.1 .undefined else acc)
        acc) p =
      if children.any (fun kc => clearsOnTypeChange dk nt kc && kc.1 = p) then .undefined
      else acc p := by
  induction children generalizing acc with
  | nil => simp
  | cons kc rest ih =>
      simp only [List.foldl_cons, List.any_cons, ih]
      by_cases hrest : rest.any (fun kc => clearsOnTypeChange dk nt kc && kc.1 = p) = true
      · simp [hrest]
      · simp only [Bool.not_eq_true] at hrest
        by_cases hclear : clearsOnTypeChange dk nt kc = true
        · by_cases hp : kc.1 = p
          · simp [hrest, hclear, hp, updateField]
          · simp [hrest, hclear, hp, updateField, Ne.symm hp]
        · simp only [Bool.not_eq_true] at hclear
          simp [hrest, hclear]

/-- **C6**.  `handleTypeChange` of `DiscriminatedUnionSection` performs
exactly these updates: the discriminant field is set to the new type;
every sibling child entry carrying a condition whose value differs from
the new type is set to `undefined`; a sibling whose condition value
equals the new type keeps its value (the children record has distinct
keys), and every path that is neither the discriminant nor a cleared
child key is unchanged. -/
theorem C6_handleTypeChange_frame (children : List (String × FormFieldDefinition))
    (discriminantKey newType : String) (data : FormState)
    (hnodup : (children.map Prod.fst).Nodup) :
    (handleTypeChange children discriminantKey data newType discriminantKey =
      .str newType) ∧
    (∀ k c cond, (k, c) ∈ children → k ≠ discriminantKey → c.condition = some cond →
      cond.value ≠ .str newType →
      handleTypeChange children discriminantKey data newType k = .undefined) ∧
    (∀ k c cond, (k, c) ∈ children → k ≠ discriminantKey → c.condition = some cond →
      cond.value = .str newType →
      handleTypeChange children discriminantKey data newType k = data k) ∧
    (∀ p, p ≠ discriminantKey →
      (∀ kc ∈ children, clearsOnTypeChange discriminantKey newType kc = true → p ≠ kc.1) →
      handleTypeChange children discriminantKey data newType p = data p) := by
  refine ⟨?_, fun k c cond hmem hk hcond hval => ?_, fun k c cond hmem hk hcond hval => ?_,
    fun p hp hframe => ?_⟩
  · rw [handleTypeChange, clear_foldl_at]
    have hany : children.any
        (fun kc => clearsOnTypeChange discriminantKey newType kc && kc.1 = discriminantKey) =
        false := by
      rw [List.any_eq_false]
      intro kc _
      simp only [Bool.and_eq_true, not_and, decide_eq_true_eq]
      intro hclear
      simp only [clearsOnTypeChange, Bool.and_eq_true, decide_eq_true_eq] at hclear
      exact hclear.1
    rw [hany]
    simp [updateField]
  · rw [handleTypeChange, clear_foldl_at]
    have hany : children.any
        (fun kc => clearsOnTypeChange discriminantKey newType kc && kc.1 = k) = true := by
      rw [List.any_eq_true]
      refine ⟨(k, c), hmem, ?_⟩
      simp [clearsOnTypeChange, hk, hcond, hval]
    rw [hany]
    simp
  · rw [handleTypeChange, clear_foldl_at]
    have hany : children.any
        (fun kc => clearsOnTypeChange discriminantKey newType kc && kc.1 = k) = false := by
      rw [List.any_eq_false]
      rintro ⟨k2, c2⟩ hmem2
      simp only [Bool.and_eq_true, not_and, decide_eq_true_eq]
      intro hclear hk2
      subst hk2
      have hc2 : c2 = c := eq_of_mem_of_nodup_keys hnodup hmem2 hmem
      subst hc2
      simp only [clearsOnTypeChange, Bool.and_eq_true, decide_eq_true_eq] at hclear
      rcases hclear with ⟨-, hcl⟩
      rw [hcond] at hcl
      simp only [decide_eq_true_eq] at hcl
      exact hcl hval
    rw [hany]
    simp [updateField, hk]
  · rw [handleTypeChange, clear_foldl_at]
    have hany : children.any
        (fun kc => clearsOnTypeChange discriminantKey newType kc && kc.1 = p) = false := by
      rw [List.any_eq_false]
      intro kc hmem2
      simp only [Bool.and_eq_true, not_and, decide_eq_true_eq]
      intro hclear hp2
      exact (hframe kc hmem2 hclear) hp2.symm
    rw [hany]
    simp [updateField, hp]

/-- **C6** (witness): a two-variant union; switching to "b" clears the
"a" child, keeps the "b" child, and sets the discriminant. -/
theorem C6_handleTypeChange_frame_witness :
    (handleTypeChange
        [("type", { key := "type", type := "literal" }),
         ("aField", { key := "aField", type := "string",
                      condition := some ⟨"type", .str "a"⟩ }),
         ("bField", { key := "bField", type := "string",
                      condition := some ⟨"type", .str "b"⟩ })]
        "type" (fun _ => .str "x") "b" "type" = .str "b") ∧
    (handleTypeChange
        [("type", { key := "type", type := "literal" }),
         ("aField", { key := "aField", type := "string",
                      condition := some ⟨"type", .str "a"⟩ }),
         ("bField", { key := "bField", type := "string",
                      condition := some ⟨"type", .str "b"⟩ })]
        "type" (fun _ => .str "x") "b" "aField" = .undefined) ∧
    (handleTypeChange
        [("type", { key := "type", type := "literal" }),
         ("aField", { key := "aField", type := "string",
                      condition := some ⟨"type", .str "a"⟩ }),
         ("bField", { key := "bField", type := "string",
                      condition := some ⟨"type", .str "b"⟩ })]
        "type" (fun _ => .str "x") "b" "bField" = .str "x") := by
  refine ⟨(C6_handleTypeChange_frame _ _ _ _ (by decide)).1,
    (C6_handleTypeChange_frame _ _ _ _ (by decide)).2.1 "aField"
      { key := "aField", type := "string", condition := some ⟨"type", .str "a"⟩ }
      ⟨"type", .str "a"⟩ (by simp) (by decide) rfl (by decide),
    (C6_handleTypeChange_frame _ _ _ _ (by decide)).2.2.1 "bField"
      { key := "bField", type := "string", condition := some ⟨"type", .str "b"⟩ }
      ⟨"type", .str "b"⟩ (by simp) (by decide) rfl rfl⟩

/-- **C10**.  Field rendering order is deterministic: `FormBuilder`
renders its listed root fields as a permutation of the filtered entries
sorted by ascending `order` (missing `order` sorting last, i.e. after
every field that has one), ties broken with primitive fields
(complexity 0) before object/array fields (complexity 1);
`FormSection.renderChildren` renders the children of a section sorted by
ascending `order`, ties broken by comparing the field keys. -/
theorem C10_field_sort_order (hiddenFields : List String)
    (fields children : List (String × FormFieldDefinition)) :
    (allRootFields hiddenFields fields).Pairwise rootSortLE ∧
    (List.Perm (allRootFields hiddenFields fields)
      (fields.filter (fun kv => rootFieldListed hiddenFields kv.1 kv.2))) ∧
    ((allRootFields hiddenFields fields).Pairwise
      (fun a b => a.2.order = none → b.2.order = none)) ∧
    (renderChildrenOrder children).Pairwise sectionSortLE ∧
    (List.Perm (renderChildrenOrder children)
      (children.filter (fun kv => kv.2.key ≠ ""))) := by
  refine ⟨List.sorted_insertionSort rootSortLE _, List.perm_insertionSort rootSortLE _,
    ?_, List.sorted_insertionSort sectionSortLE _, List.perm_insertionSort sectionSortLE _⟩
  refine List.Pairwise.imp ?_ (List.sorted_insertionSort rootSortLE _)
  intro a b hab hnone
  have ha : orderKey a.2 = ⊤ := by simp [orderKey, hnone]
  rcases hab with h | ⟨h, _⟩
  · exact absurd (ha ▸ h) not_top_lt
  · have hb : orderKey b.2 = ⊤ := by rw [← h, ha]
    rcases hob : b.2.order with _ | o
    · rfl
    · rw [orderKey, hob] at hb
      exact absurd hb (WithTop.coe_ne_top)

/-- Helper: `setInt16LE` leaves positions other than `off`, `off + 1`
unchanged. -/
theorem setInt16LE_preserve (b : ByteBuf) (off : Nat) (v : Int) (j : Nat)
    (h1 : j ≠ off) (h2 : j ≠ off + 1) : setInt16LE b off v j = b j := by
  simp [setInt16LE, setUint8, h1, h2]

/-- Helper: the two bytes written by `setInt16LE`. -/
theorem setInt16LE_bytes (b : ByteBuf) (off : Nat) (v : Int) :
    setInt16LE b off v off = (v % 65536).toNat % 256 ∧
      setInt16LE b off v (off + 1) = (v % 65536).toNat / 256 % 256 := by
  constructor
  · simp [setInt16LE, setUint8, Nat.succ_ne_self, (by omega : off ≠ off + 1)]
  · simp [setInt16LE, setUint8]

/-- Helper: a fold whose step only writes at or above the running
offset, and never decreases it, preserves all positions below the
starting offset. -/
theorem foldl_write_preserve {α : Type} (step : ByteBuf × Nat → α → ByteBuf × Nat)
    (hpres : ∀ acc x j, j < acc.2 → (step acc x).1 j = acc.1 j)
    (hoff : ∀ acc x, acc.2 ≤ (step acc x).2) :
    ∀ (l : List α) (acc : ByteBuf × Nat),
      (∀ j, j < acc.2 → (l.foldl step acc).1 j = acc.1 j) ∧
        acc.2 ≤ (l.foldl step acc).2
  | [], acc => ⟨fun _ _ => rfl, le_rfl⟩
  | x :: rest, acc => by
      obtain ⟨ih1, ih2⟩ := foldl_write_preserve step hpres hoff rest (step acc x)
      refine ⟨fun j hj => ?_, le_trans (hoff acc x) ih2⟩
      rw [List.foldl_cons, ih1 j (lt_of_lt_of_le hj (hoff acc x))]
      exact hpres acc x j hj

/-- Helper: the channel loop of one frame writes only at or above the
running offset. -/
theorem channels_foldl_preserve (buffer : AudioBuffer) (i : Nat) (chs : List Nat)
    (acc : ByteBuf × Nat) :
    (∀ j, j < acc.2 →
      (chs.foldl
          (fun acc2 channel =>
            (setInt16LE acc2.1 acc2.2 (sampleToInt16 (buffer.channelData channel i)),
              acc2.2 + 2))
          acc).1 j = acc.1 j) ∧
      acc.2 ≤ (chs.foldl
          (fun acc2 channel =>
            (setInt16LE acc2.1 acc2.2 (sampleToInt16 (buffer.channelData channel i)),
              acc2.2 + 2))
          acc).2 := by
  apply foldl_write_preserve
  · intro acc2 ch j hj
    exact setInt16LE_preserve _ _ _ _ (by omega) (by omega)
  · intro acc2 ch
    simp

/-- Helper: `writeSamples` preserves the 44 header bytes. -/
theorem writeSamples_preserve (buffer : AudioBuffer) (init : ByteBuf) (j : Nat)
    (hj : j < 44) : (writeSamples buffer init).1 j = init j := by
  rw [writeSamples]
  exact (foldl_write_preserve _
    (fun acc i k hk => (channels_foldl_preserve buffer i _ acc).1 k hk)
    (fun acc i => (channels_foldl_preserve buffer i _ acc).2)
    (List.range buffer.length) (init, 44)).1 j hj

/-- Helper: final offset of the channel loop of one frame. -/
theorem channels_foldl_snd (buffer : AudioBuffer) (i : Nat) (C : Nat) (acc : ByteBuf × Nat) :
    ((List.range C).foldl
        (fun acc2 channel =>
          (setInt16LE acc2.1 acc2.2 (sampleToInt16 (buffer.channelData channel i)),
            acc2.2 + 2))
        acc).2 = acc.2 + 2 * C := by
  induction C generalizing acc with
  | zero => simp
  | succ n ih =>
      rw [List.range_succ, List.foldl_append]
      simp only [List.foldl_cons, List.foldl_nil]
      rw [ih]
      omega

/-- Helper: bytes written by the channel loop of frame `i` for each
channel `ch`: the 16-bit little-endian encoding of the converted
sample. -/
theorem channels_foldl_bytes (buffer : AudioBuffer) (i : Nat) (C : Nat) (acc : ByteBuf × Nat)
    (ch : Nat) (hch : ch < C) :
    ((List.range C).foldl
        (fun acc2 channel =>
          (setInt16LE acc2.1 acc2.2 (sampleToInt16 (buffer.channelData channel i)),
            acc2.2 + 2))
        acc).1 (acc.2 + 2 * ch) =
      (sampleToInt16 (buffer.channelData ch i) % 65536).toNat % 256 ∧
    ((List.range C).foldl
        (fun acc2 channel =>
          (setInt16LE acc2.1 acc2.2 (sampleToInt16 (buffer.channelData channel i)),
            acc2.2 + 2))
        acc).1 (acc.2 + 2 * ch + 1) =
      (sampleToInt16 (buffer.channelData ch i) % 65536).toNat / 256 % 256 := by
  induction C with
  | zero => omega
  | succ n ih =>
      rw [List.range_succ, List.foldl_append]
      simp only [List.foldl_cons, List.foldl_nil]
      have hsnd := channels_foldl_snd buffer i n acc
      rcases Nat.lt_or_ge ch n with hlt | hge
      · obtain ⟨ih1, ih2⟩ := ih hlt
        constructor
        · rw [setInt16LE_preserve _ _ _ _ (by omega) (by omega)]
          exact ih1
        · rw [setInt16LE_preserve _ _ _ _ (by omega) (by omega)]
          exact ih2
      · have hche : ch = n := by omega
        subst hche
        constructor
        · rw [show acc.2 + 2 * ch =
              ((List.range ch).foldl
                (fun acc2 channel =>
                  (setInt16LE acc2.1 acc2.2 (sampleToInt16 (buffer.channelData channel i)),
                    acc2.2 + 2))
                acc).2 by omega]
          exact (setInt16LE_bytes _ _ _).1
        · rw [show acc.2 + 2 * ch + 1 =
              ((List.range ch).foldl
                (fun acc2 channel =>
                  (setInt16LE acc2.1 acc2.2 (sampleToInt16 (buffer.channelData channel i)),
                    acc2.2 + 2))
                acc).2 + 1 by omega]
          exact (setInt16LE_bytes _ _ _).2

/-- Helper: final offset of the frame loop. -/
theorem frames_foldl_snd (buffer : AudioBuffer) (init : ByteBuf) (N : Nat) :
    ((List.range N).foldl
        (fun acc i =>
          (List.range buffer.numberOfChannels).foldl
            (fun acc2 channel =>
              (setInt16LE acc2.1 acc2.2 (sampleToInt16 (buffer.channelData channel i)),
                acc2.2 + 2))
            acc)
        (init, 44)).2 = 44 + 2 * (N * buffer.numberOfChannels) := by
  induction N with
  | zero => simp
  | succ n ih =>
      rw [List.range_succ, List.foldl_append]
      simp only [List.foldl_cons, List.foldl_nil]
      rw [channels_foldl_snd, ih]
      ring

/-- Helper: bytes written by the frame loop at the interleaved sample
positions. -/
theorem frames_foldl_bytes (buffer : AudioBuffer) (init : ByteBuf) (N : Nat)
    (i ch : Nat) (hi : i < N) (hch : ch < buffer.numberOfChannels) :
    ((List.range N).foldl
        (fun acc i =>
          (List.range buffer.numberOfChannels).foldl
            (fun acc2 channel =>
              (setInt16LE acc2.1 acc2.2 (sampleToInt16 (buffer.channelData channel i)),
                acc2.2 + 2))
            acc)
        (init, 44)).1 (44 + 2 * (i * buffer.numberOfChannels + ch)) =
      (sampleToInt16 (buffer.channelData ch i) % 65536).toNat % 256 ∧
    ((List.range N).foldl
        (fun acc i =>
          (List.range buffer.numberOfChannels).foldl
            (fun acc2 channel =>
              (setInt16LE acc2.1 acc2.2 (sampleToInt16 (buffer.channelData channel i)),
                acc2.2 + 2))
            acc)
        (init, 44)).1 (44 + 2 * (i * buffer.numberOfChannels + ch) + 1) =
      (sampleToInt16 (buffer.channelData ch i) % 65536).toNat / 256 % 256 := by
  induction N with
  | zero => omega
  | succ n ih =>
      rw [List.range_succ, List.foldl_append]
      simp only [List.foldl_cons, List.foldl_nil]
      have hsnd := frames_foldl_snd buffer init n
      rcases Nat.lt_or_ge i n with hlt | hge
      · obtain ⟨ih1, ih2⟩ := ih hlt
        have hbound : i * buffer.numberOfChannels + ch < n * buffer.numberOfChannels := by
          calc i * buffer.numberOfChannels + ch
              < i * buffer.numberOfChannels + buffer.numberOfChannels := by omega
            _ = (i + 1) * buffer.numberOfChannels := by ring
            _ ≤ n * buffer.numberOfChannels := Nat.mul_le_mul_right _ (by omega)
        constructor
        · rw [(channels_foldl_preserve buffer n _ _).1 _ (by omega)]
          exact ih1
        · rw [(channels_foldl_preserve buffer n _ _).1 _ (by omega)]
          exact ih2
      · have hie : i = n := by omega
        subst hie
        constructor
        · rw [show 44 + 2 * (i * buffer.numberOfChannels + ch) =
              ((List.range i).foldl
                (fun acc i =>
                  (List.range buffer.numberOfChannels).foldl
                    (fun acc2 channel =>
                      (setInt16LE acc2.1 acc2.2
                        (sampleToInt16 (buffer.channelData channel i)),
                        acc2.2 + 2))
                    acc)
                (init, 44)).2 + 2 * ch by omega]
          exact (channels_foldl_bytes buffer i buffer.numberOfChannels _ ch hch).1
        · rw [show 44 + 2 * (i * buffer.numberOfChannels + ch) + 1 =
              ((List.range i).foldl
                (fun acc i =>
                  (List.range buffer.numberOfChannels).foldl
                    (fun acc2 channel =>
                      (setInt16LE acc2.1 acc2.2
                        (sampleToInt16 (buffer.channelData channel i)),
                        acc2.2 + 2))
                    acc)
                (init, 44)).2 + 2 * ch + 1 by omega]
          exact (channels_foldl_bytes buffer i buffer.numberOfChannels _ ch hch).2

/-- Helper: the interleaved data bytes of `writeSamples`. -/
theorem writeSamples_bytes (buffer : AudioBuffer) (init : ByteBuf) (i ch : Nat)
    (hi : i < buffer.length) (hch : ch < buffer.numberOfChannels) :
    (writeSamples buffer init).1 (44 + 2 * (i * buffer.numberOfChannels + ch)) =
      (sampleToInt16 (buffer.channelData ch i) % 65536).toNat % 256 ∧
    (writeSamples buffer init).1 (44 + 2 * (i * buffer.numberOfChannels + ch) + 1) =
      (sampleToInt16 (buffer.channelData ch i) % 65536).toNat / 256 % 256 := by
  rw [writeSamples]
  exact frames_foldl_bytes buffer init buffer.length i ch hi hch

/-- **C10** (witness): the sorted root list of a concrete schema is
ordered and a permutation of the filtered input. -/
theorem C10_field_sort_order_witness :
    (allRootFields []
        [("b", { key := "b", type := "object", order := some 2 }),
         ("a", { key := "a", type := "string", order := some 1 }),
         ("c", { key := "c", type := "string" })]).Pairwise rootSortLE ∧
      (allRootFields []
        [("b", { key := "b", type := "object", order := some 2 }),
         ("a", { key := "a", type := "string", order := some 1 }),
         ("c", { key := "c", type := "string" })]).Pairwise
        (fun a b => a.2.order = none → b.2.order = none) :=
  ⟨(C10_field_sort_order [] _ []).1, (C10_field_sort_order [] _ []).2.2.1⟩

/-- Helper: the bytes of `audioBufferToWav` are the sample loop run over
the written header. -/
theorem audioBufferToWav_bytes (buffer : AudioBuffer) :
    (audioBufferToWav buffer).bytes = (writeSamples buffer (wavHeaderView buffer)).1 := rfl

/-- Helper: the blob size of `audioBufferToWav`. -/
theorem audioBufferToWav_byteLength (buffer : AudioBuffer) :
    (audioBufferToWav buffer).byteLength =
      44 + buffer.length * buffer.numberOfChannels * 2 := rfl

/-- Helper: `setUint8` elsewhere. -/
theorem setUint8_preserve (b : ByteBuf) (off v j : Nat) (h : j ≠ off) :
    setUint8 b off v j = b j := by
  simp [setUint8, h]

/-- Helper: `setUint16LE` elsewhere. -/
theorem setUint16LE_preserve (b : ByteBuf) (off v j : Nat) (h1 : j ≠ off)
    (h2 : j ≠ off + 1) : setUint16LE b off v j = b j := by
  simp [setUint16LE, setUint8, h1, h2]

/-- Helper: `setUint32LE` elsewhere. -/
theorem setUint32LE_preserve (b : ByteBuf) (off v j : Nat)
    (h : j < off ∨ off + 4 ≤ j) : setUint32LE b off v j = b j := by
  simp only [setUint32LE, setUint8]
  rw [if_neg (by omega), if_neg (by omega), if_neg (by omega), if_neg (by omega)]

/-- Helper: the four bytes written by `setUint32LE`. -/
theorem setUint32LE_read (b : ByteBuf) (off v : Nat) :
    setUint32LE b off v off = v % 256 ∧
    setUint32LE b off v (off + 1) = v / 256 % 256 ∧
    setUint32LE b off v (off + 2) = v / 65536 % 256 ∧
    setUint32LE b off v (off + 3) = v / 16777216 % 256 := by
  refine ⟨?_, ?_, ?_, ?_⟩
  · simp only [setUint32LE, setUint8]
    rw [if_neg (by omega), if_neg (by omega), if_neg (by omega)]
    simp
  · simp only [setUint32LE, setUint8]
    rw [if_neg (by omega), if_neg (by omega)]
    simp
  · simp only [setUint32LE, setUint8]
    rw [if_neg (by omega)]
    simp
  · simp only [setUint32LE, setUint8]
    simp

/-- Helper: `writeChars` elsewhere. -/
theorem writeChars_preserve : ∀ (cs : List Char) (b : ByteBuf) (off j : Nat),
    j < off ∨ off + cs.length ≤ j → writeChars b off cs j = b j
  | [], _, _, _, _ => rfl
  | c :: rest, b, off, j, h => by
      simp only [List.length_cons] at h
      rw [writeChars, writeChars_preserve rest _ (off + 1) j (by omega)]
      exact setUint8_preserve _ _ _ _ (by omega)

/-- Helper: `writeString` elsewhere. -/
theorem writeString_preserve (b : ByteBuf) (off : Nat) (s : String) (j : Nat)
    (h : j < off ∨ off + s.toList.length ≤ j) : writeString b off s j = b j := by
  rw [writeString]
  exact writeChars_preserve _ _ _ _ h

/-- Helper: bytes 4–7 of the header come from the RIFF chunk-size
write. -/
theorem wavHeaderView_peel4 (buffer : AudioBuffer) (j : Nat) (h1 : 4 ≤ j) (h2 : j ≤ 7) :
    wavHeaderView buffer j =
      setUint32LE (writeString (fun _ => 0) 0 "RIFF") 4
        (36 + buffer.length * buffer.numberOfChannels * 2) j := by
  rw [wavHeaderView]
  rw [setUint32LE_preserve _ _ _ _ (by omega)]
  rw [writeString_preserve _ _ _ _ (by left; omega)]
  rw [setUint16LE_preserve _ _ _ _ (by omega) (by omega)]
  rw [setUint16LE_preserve _ _ _ _ (by omega) (by omega)]
  rw [setUint32LE_preserve _ _ _ _ (by omega)]
  rw [setUint32LE_preserve _ _ _ _ (by omega)]
  rw [setUint16LE_preserve _ _ _ _ (by omega) (by omega)]
  rw [setUint16LE_preserve _ _ _ _ (by omega) (by omega)]
  rw [setUint32LE_preserve _ _ _ _ (by omega)]
  rw [writeString_preserve _ _ _ _ (by left; omega)]
  rw [writeString_preserve _ _ _ _ (by left; omega)]

/-- Helper: bytes 28–31 of the header come from the byte-rate write. -/
theorem wavHeaderView_peel28 (buffer : AudioBuffer) (j : Nat) (h1 : 28 ≤ j) (h2 : j ≤ 31) :
    wavHeaderView buffer j =
      setUint32LE
        (setUint32LE
          (setUint16LE
            (setUint16LE
              (setUint32LE
                (writeString
                  (writeString
                    (setUint32LE
                      (writeString (fun _ => 0) 0 "RIFF")
                      4 (36 + buffer.length * buffer.numberOfChannels * 2))
                    8 "WAVE")
                  12 "fmt ")
                16 16)
              20 1)
            22 buffer.numberOfChannels)
          24 buffer.sampleRate)
        28 (buffer.sampleRate * buffer.numberOfChannels * 2) j := by
  rw [wavHeaderView]
  rw [setUint32LE_preserve _ _ _ _ (by omega)]
  rw [writeString_preserve _ _ _ _ (by left; omega)]
  rw [setUint16LE_preserve _ _ _ _ (by omega) (by omega)]
  rw [setUint16LE_preserve _ _ _ _ (by omega) (by omega)]

/-- Helper: decomposing a little-endian 32-bit read of a value below
2^32. -/
theorem getUint32_recompose (v : Nat) (h : v < 4294967296) :
    v % 256 + 256 * (v / 256 % 256) + 65536 * (v / 65536 % 256) +
      16777216 * (v / 16777216 % 256) = v := by
  omega

/-- **C9**.  For an AudioBuffer with `C` channels, `N` frames and rate
`R` (fields small enough for their 32-bit slots), `audioBufferToWav`
returns a blob of exactly `44 + N*C*2` bytes whose RIFF chunk-size
field at offset 4 reads `36 + N*C*2`, whose data chunk-size field at
offset 40 reads `N*C*2`, and whose byte-rate field at offset 28 reads
`R*C*2`; every interleaved data word is the 16-bit little-endian
encoding of the sample converted after clamping (the clamp lands in
`[-1, 1]` and converting any sample equals converting its clamp). -/
theorem C9_audioBufferToWav_layout (buffer : AudioBuffer)
    (hsize : 36 + buffer.length * buffer.numberOfChannels * 2 < 4294967296)
    (hrate : buffer.sampleRate * buffer.numberOfChannels * 2 < 4294967296) :
    (audioBufferToWav buffer).byteLength =
      44 + buffer.length * buffer.numberOfChannels * 2 ∧
    getUint32LE (audioBufferToWav buffer).bytes 4 =
      36 + buffer.length * buffer.numberOfChannels * 2 ∧
    getUint32LE (audioBufferToWav buffer).bytes 40 =
      buffer.length * buffer.numberOfChannels * 2 ∧
    getUint32LE (audioBufferToWav buffer).bytes 28 =
      buffer.sampleRate * buffer.numberOfChannels * 2 ∧
    (∀ i ch, i < buffer.length → ch < buffer.numberOfChannels →
      getUint16LE (audioBufferToWav buffer).bytes
          (44 + 2 * (i * buffer.numberOfChannels + ch)) =
        ((sampleToInt16 (buffer.channelData ch i)) % 65536).toNat) ∧
    (∀ s : ℚ, -1 ≤ jsClamp s ∧ jsClamp s ≤ 1 ∧
      sampleToInt16 s = sampleToInt16 (jsClamp s)) := by
  have hclamp_le : ∀ s : ℚ, jsClamp s ≤ 1 :=
    fun s => max_le (by norm_num) (min_le_left _ _)
  have hclamp_ge : ∀ s : ℚ, (-1 : ℚ) ≤ jsClamp s := fun s => le_max_left _ _
  have hclamp_idem : ∀ s : ℚ, jsClamp (jsClamp s) = jsClamp s := by
    intro s
    rw [jsClamp, min_eq_right (hclamp_le s), max_eq_right (hclamp_ge s)]
  refine ⟨audioBufferToWav_byteLength buffer, ?_, ?_, ?_, ?_,
    fun s => ⟨hclamp_ge s, hclamp_le s, by simp only [sampleToInt16, hclamp_idem]⟩⟩
  · rw [audioBufferToWav_bytes, getUint32LE,
      writeSamples_preserve buffer _ 4 (by omega),
      writeSamples_preserve buffer _ (4 + 1) (by omega),
      writeSamples_preserve buffer _ (4 + 2) (by omega),
      writeSamples_preserve buffer _ (4 + 3) (by omega),
      wavHeaderView_peel4 buffer 4 (by omega) (by omega),
      wavHeaderView_peel4 buffer (4 + 1) (by omega) (by omega),
      wavHeaderView_peel4 buffer (4 + 2) (by omega) (by omega),
      wavHeaderView_peel4 buffer (4 + 3) (by omega) (by omega),
      (setUint32LE_read _ 4 _).1, (setUint32LE_read _ 4 _).2.1,
      (setUint32LE_read _ 4 _).2.2.1, (setUint32LE_read _ 4 _).2.2.2]
    exact getUint32_recompose _ hsize
  · rw [audioBufferToWav_bytes, getUint32LE,
      writeSamples_preserve buffer _ 40 (by omega),
      writeSamples_preserve buffer _ (40 + 1) (by omega),
      writeSamples_preserve buffer _ (40 + 2) (by omega),
      writeSamples_preserve buffer _ (40 + 3) (by omega),
      wavHeaderView,
      (setUint32LE_read _ 40 _).1, (setUint32LE_read _ 40 _).2.1,
      (setUint32LE_read _ 40 _).2.2.1, (setUint32LE_read _ 40 _).2.2.2]
    exact getUint32_recompose _ (by omega)
  · rw [audioBufferToWav_bytes, getUint32LE,
      writeSamples_preserve buffer _ 28 (by omega),
      writeSamples_preserve buffer _ (28 + 1) (by omega),
      writeSamples_preserve buffer _ (28 + 2) (by omega),
      writeSamples_preserve buffer _ (28 + 3) (by omega),
      wavHeaderView_peel28 buffer 28 (by omega) (by omega),
      wavHeaderView_peel28 buffer (28 + 1) (by omega) (by omega),
      wavHeaderView_peel28 buffer (28 + 2) (by omega) (by omega),
      wavHeaderView_peel28 buffer (28 + 3) (by omega) (by omega),
      (setUint32LE_read _ 28 _).1, (setUint32LE_read _ 28 _).2.1,
      (setUint32LE_read _ 28 _).2.2.1, (setUint32LE_read _ 28 _).2.2.2]
    exact getUint32_recompose _ hrate
  · intro i ch hi hch
    obtain ⟨w0, w1⟩ := writeSamples_bytes buffer (wavHeaderView buffer) i ch hi hch
    rw [audioBufferToWav_bytes, getUint16LE, w0, w1]
    have h1 : (0 : Int) ≤ sampleToInt16 (buffer.channelData ch i) % 65536 :=
      Int.emod_nonneg _ (by norm_num)
    have h2 : sampleToInt16 (buffer.channelData ch i) % 65536 < 65536 :=
      Int.emod_lt_of_pos _ (by norm_num)
    omega

/-- **C9** (witness): a one-channel, two-frame, 8000 Hz buffer with an
out-of-range sample. -/
theorem C9_audioBufferToWav_layout_witness :
    (audioBufferToWav
        { numberOfChannels := 1, sampleRate := 8000, length := 2
          channelData := fun _ i => if i = 0 then 2 else -1/2 }).byteLength = 44 + 2 * 1 * 2 ∧
      getUint32LE (audioBufferToWav
        { numberOfChannels := 1, sampleRate := 8000, length := 2
          channelData := fun _ i => if i = 0 then 2 else -1/2 }).bytes 28 = 8000 * 1 * 2 :=
  have h := C9_audioBufferToWav_layout
    { numberOfChannels := 1, sampleRate := 8000, length := 2
      channelData := fun _ i => if i = 0 then 2 else -1/2 }
    (by norm_num) (by norm_num)
  ⟨h.1, h.2.2.2.1⟩

end Liquidcn
